import Mathlib

/-!
# Verification of the BMO voice client core (`bmo_voice.py`)

A shallow embedding of the conversation state machine and audio pipeline of
the voice client: the wake gate (`_handle_wake`), the energy-based utterance
recorder (`_record_utterance`), WAV encoding (`_pcm_to_wav`), confirmation
classification (`classify_response`), the interrupt detector
(`_interrupt_detector`), the follow-up listener (`_listen_for_follow_up`),
the conversation loop (`_voice_interaction_loop`), and the callback server
handlers (`_handle_chime`, `_handle_play`).

Machine integers (int16 PCM samples) are modelled as `ℤ`; audio energies and
configured durations/thresholds are modelled as `ℚ` (the Python code uses
floats; none of the verified properties depend on float rounding).
Microphone input is modelled as a stream `ℕ → Frame` of already-captured
frames; blocking reads always succeed, and the `self._running` shutdown flag
is taken to be `True` throughout (we verify the steady-state behaviour).
-/

namespace BMOVoice

/-- The client state machine (`class State(Enum)` in the source):
IDLE, LISTENING, PROCESSING, SPEAKING. -/
inductive State where
  | idle
  | listening
  | processing
  | speaking
deriving DecidableEq, Repr

/-- One microphone frame: a block of mono 16-bit PCM samples
(`data[:, 0]` in the source), modelled as a list of integers. -/
abbrev Frame := List ℤ

/-- Energy-based VAD measure: `np.abs(frame).mean()` — the mean absolute
amplitude of the frame. (For an empty frame the `ℚ` division yields 0;
real frames always have `frame_size` samples.) -/
def energy (f : Frame) : ℚ :=
  ((f.map (fun s => |s|)).sum : ℚ) / (f.length : ℚ)

/-- Python `int(q)` for a nonnegative rational: truncation toward zero,
which is floor for the nonnegative durations/rates the config holds. -/
def intFloorToNat (q : ℚ) : ℕ := q.num.toNat / q.den

/-- The audio-related configuration fields read in `BMOVoiceClient.__init__`
from `config["audio"]` (plus the conversation follow-up duration). -/
structure AudioConfig where
  sample_rate : ℕ
  channels : ℕ
  frame_size : ℕ
  silence_threshold : ℚ
  silence_duration : ℚ
  max_recording : ℚ
deriving DecidableEq, Repr

/-- `silence_frames_needed = int(silence_duration * sample_rate / frame_size)`
(from `_record_utterance`). -/
def silenceFramesNeeded (cfg : AudioConfig) : ℕ :=
  intFloorToNat (cfg.silence_duration * cfg.sample_rate / cfg.frame_size)

/-- `max_frames = int(max_recording * sample_rate / frame_size)`
(from `_record_utterance`). -/
def maxUtteranceFrames (cfg : AudioConfig) : ℕ :=
  intFloorToNat (cfg.max_recording * cfg.sample_rate / cfg.frame_size)

/-- The WAV buffer produced by `_pcm_to_wav`: 1 channel, 2-byte samples,
framerate `sample_rate`, and the raw PCM samples. -/
structure WavFile where
  nchannels : ℕ
  sampwidth : ℕ
  framerate : ℕ
  samples : List ℤ
deriving DecidableEq, Repr

/-- `_pcm_to_wav`: wrap an int16 PCM array as mono 16-bit WAV at the
configured sample rate. -/
def pcm_to_wav (sample_rate : ℕ) (pcm : List ℤ) : WavFile :=
  ⟨1, 2, sample_rate, pcm⟩

/-- Duration in seconds of a WAV buffer: sample count over framerate. -/
def wavDuration (w : WavFile) : ℚ :=
  (w.samples.length : ℚ) / (w.framerate : ℚ)

/-- The frames `stream i, stream (i+1), ..., stream (i+k-1)` — the block of
`k` consecutive frames read from the microphone starting at index `i`. -/
def framesFrom (stream : ℕ → Frame) (i k : ℕ) : List Frame :=
  (List.range k).map (fun j => stream (i + j))

/-- The recording loop body of `_record_utterance` (`for _ in range(max_frames)`),
with the loop state (accumulated frames, consecutive-silence counter,
has-speech flag) passed explicitly and the remaining iteration count as fuel.
Per frame: append it; if its energy exceeds the threshold set `has_speech`
and reset the silence counter, else increment the counter; break once
`has_speech and silence_count >= silence_frames_needed`.
Returns the accumulated frames and the `has_speech` flag. -/
def recordAux (stream : ℕ → Frame) (threshold : ℚ) (silenceNeeded : ℕ) :
    (fuel : ℕ) → (i : ℕ) → (frames : List Frame) → (silenceCount : ℕ) →
    (hasSpeech : Bool) → List Frame × Bool
  | 0, _, frames, _, hasSpeech => (frames, hasSpeech)
  | fuel + 1, i, frames, silenceCount, hasSpeech =>
    let frame := stream i
    let loud : Bool := energy frame > threshold
    let hs := hasSpeech || loud
    let sc := if loud then 0 else silenceCount + 1
    if hs && decide (silenceNeeded ≤ sc) then (frames ++ [frame], hs)
    else recordAux stream threshold silenceNeeded fuel (i + 1) (frames ++ [frame]) sc hs

/-- `_record_utterance`: run the recording loop for at most `max_frames`
frames; if no frame ever exceeded the threshold return `None`, otherwise
concatenate the frames and WAV-encode them. -/
def recordUtterance (cfg : AudioConfig) (stream : ℕ → Frame) : Option WavFile :=
  let result := recordAux stream cfg.silence_threshold (silenceFramesNeeded cfg)
    (maxUtteranceFrames cfg) 0 [] 0 false
  if result.2 then some (pcm_to_wav cfg.sample_rate result.1.flatten) else none

/-- Python `str.strip()` on the character list: drop whitespace from both
ends. -/
def pyStrip (cs : List Char) : List Char :=
  ((cs.dropWhile Char.isWhitespace).reverse.dropWhile Char.isWhitespace).reverse

/-- Python `text.lower().strip()`: lowercase each character, then strip
surrounding whitespace. -/
def lowerStrip (text : String) : List Char :=
  pyStrip (text.data.map Char.toLower)

/-- Python's `phrase in lower` substring test: `pattern` occurs contiguously
inside `text`. -/
def containsSub (pattern : List Char) : (text : List Char) → Bool
  | [] => pattern.isEmpty
  | c :: rest => pattern.isPrefixOf (c :: rest) || containsSub pattern rest

/-- `CONFIRMATION_PHRASES` from the source, in source order. -/
def CONFIRMATION_PHRASES : List String :=
  ["yeah", "yes", "what's up", "go ahead", "what", "hey",
   "yep", "sure", "okay", "ok", "go", "tell me", "shoot"]

/-- `REJECTION_PHRASES` from the source, in source order. -/
def REJECTION_PHRASES : List String :=
  ["not now", "later", "no", "busy", "stop", "ignore",
   "never mind", "nevermind"]

/-- `classify_response`: lowercase and strip the text; empty → `"timeout"`;
any rejection phrase contained → `"rejected"` (checked first); any
confirmation phrase contained → `"confirmed"`; otherwise `"confirmed"`
by default. (Iterating over the Python sets and returning on the first hit
is equivalent to the `List.any` test: the same result for every order.) -/
def classify_response (text : String) : String :=
  let lower := lowerStrip text
  if lower.isEmpty then "timeout"
  else if REJECTION_PHRASES.any (fun p => containsSub p.data lower) then "rejected"
  else if CONFIRMATION_PHRASES.any (fun p => containsSub p.data lower) then "confirmed"
  else "confirmed"

/-- `start_wait_frames = int(follow_up_duration * sample_rate / frame_size)`
(from `_listen_for_follow_up`). -/
def startWaitFrames (cfg : AudioConfig) (followUpDuration : ℚ) : ℕ :=
  intFloorToNat (followUpDuration * cfg.sample_rate / cfg.frame_size)

/-- `max_frames = int((follow_up_duration + max_recording) * sample_rate / frame_size)`
(from `_listen_for_follow_up`). -/
def maxFollowUpFrames (cfg : AudioConfig) (followUpDuration : ℚ) : ℕ :=
  intFloorToNat ((followUpDuration + cfg.max_recording) * cfg.sample_rate / cfg.frame_size)

/-- The loop body of `_listen_for_follow_up` (`for i in range(max_frames)`).
While no speech has been heard, each frame increments `waited`; a loud frame
starts accumulation, and once `waited` reaches `start_wait_frames` without
speech the listener returns `None`. After speech starts, frames accumulate
until `silence_needed` consecutive quiet frames end the loop; the post-loop
check returns `None` when no speech (or no frames) was collected. -/
def followUpAux (stream : ℕ → Frame) (threshold : ℚ) (silenceNeeded startWait : ℕ) :
    (fuel : ℕ) → (i : ℕ) → (frames : List Frame) → (hasSpeech : Bool) →
    (silenceCount : ℕ) → (waited : ℕ) → Option (List Frame)
  | 0, _, frames, hasSpeech, _, _ =>
    if hasSpeech && !frames.isEmpty then some frames else none
  | fuel + 1, i, frames, hasSpeech, silenceCount, waited =>
    let frame := stream i
    let loud : Bool := energy frame > threshold
    if hasSpeech = false then
      let waited_a := waited + 1
      if loud then
        followUpAux stream threshold silenceNeeded startWait fuel (i + 1)
          (frames ++ [frame]) true 0 waited_a
      else if startWait ≤ waited_a then none
      else
        followUpAux stream threshold silenceNeeded startWait fuel (i + 1)
          frames false silenceCount waited_a
    else
      let frames_a := frames ++ [frame]
      if loud then
        followUpAux stream threshold silenceNeeded startWait fuel (i + 1)
          frames_a true 0 waited
      else if silenceNeeded ≤ silenceCount + 1 then
        if !frames_a.isEmpty then some frames_a else none
      else
        followUpAux stream threshold silenceNeeded startWait fuel (i + 1)
          frames_a true (silenceCount + 1) waited

/-- `_listen_for_follow_up`: run the follow-up loop; `None` when no speech
began within the start window (or none at all), otherwise the collected
frames WAV-encoded. -/
def listenForFollowUp (cfg : AudioConfig) (followUpDuration : ℚ)
    (stream : ℕ → Frame) : Option WavFile :=
  match followUpAux stream cfg.silence_threshold (silenceFramesNeeded cfg)
      (startWaitFrames cfg followUpDuration)
      (maxFollowUpFrames cfg followUpDuration) 0 [] false 0 0 with
  | none => none
  | some frames => some (pcm_to_wav cfg.sample_rate frames.flatten)

/-- The loop of `_interrupt_detector`: count consecutive frames whose energy
exceeds `silence_threshold * 2`; on the third consecutive loud frame set the
interrupted flag and stop playback (modelled as returning `true`); a quiet
frame resets the count. The finite feed models the microphone frames read
before the stop event ends the loop; exhausting it returns `false`
(no interrupt). -/
def interruptAux (threshold : ℚ) : (speechFrames : ℕ) → (feed : List Frame) → Bool
  | _, [] => false
  | speechFrames, f :: rest =>
    if energy f > threshold * 2 then
      if 3 ≤ speechFrames + 1 then true
      else interruptAux threshold (speechFrames + 1) rest
    else interruptAux threshold 0 rest

/-- `_interrupt_detector`, started with `speech_frames = 0`. The result is
`true` exactly when the detector set `self._interrupted` and called
`sd.stop()`. -/
def interruptDetector (threshold : ℚ) (feed : List Frame) : Bool :=
  interruptAux threshold 0 feed

/-- Modelled from the claim's words (spec §4.4 / §8 barge-in property), for
comparison with `interruptDetector`: the feed contains at least 3
consecutive frames whose energy exceeds the elevated threshold
`silence_threshold * 2`. -/
def hasThreeConsecutiveLoud (threshold : ℚ) : (feed : List Frame) → Bool
  | f1 :: f2 :: f3 :: rest =>
    (decide (energy f1 > threshold * 2) && decide (energy f2 > threshold * 2) &&
      decide (energy f3 > threshold * 2))
    || hasThreeConsecutiveLoud threshold (f2 :: f3 :: rest)
  | _ => false

/-- The gate at the top of `_handle_wake`: under `self._lock`, return
(ignoring the trigger) if the state is not IDLE, else set it to LISTENING.
Result: the state after the gate and whether the trigger was accepted
(a Listening phase started). The lock serializes concurrent gate
executions, so two triggers in one frame-processing window run this
function one after the other. -/
def handleWakeGate (s : State) : State × Bool :=
  if s = State.idle then (State.listening, true) else (s, false)

/-- A JSON object body, modelled as field/value string pairs, together with
the HTTP status code — the responses `_json_response` sends. -/
structure HttpResponse where
  code : ℕ
  body : List (String × String)
deriving DecidableEq, Repr

/-- The outcome of a chime request as observed at the boundary:
the HTTP response, whether `play_chime_sound` ran, whether
`_listen_for_confirmation` ran, and every write to `client.state`
the handler performed, in order. -/
structure ChimeOutcome where
  response : HttpResponse
  playedChime : Bool
  listened : Bool
  stateWrites : List State
deriving DecidableEq, Repr

/-- A chime request body after JSON parsing: either invalid JSON, or a
parsed object providing `text` and `type` (with their defaults). -/
inductive ChimeBody where
  | invalid
  | valid (text : String) (ntype : String)
deriving DecidableEq, Repr

/-- `CallbackHandler._handle_chime`, with the client registered
(`voice_client` set), `s` the client state at the busy check, and
`confirmResult` the classification `_listen_for_confirmation` would return.
Invalid JSON → 400; busy (state ≠ IDLE) → 200 rejected/Client busy with no
sound and no listening; otherwise chime, listen, and return the result.
The handler never writes `client.state`. -/
def handleChime (body : ChimeBody) (s : State) (confirmResult : String) : ChimeOutcome :=
  match body with
  | ChimeBody.invalid =>
    ⟨⟨400, [("status", "error"), ("error", "Invalid JSON")]⟩, false, false, []⟩
  | ChimeBody.valid _ _ =>
    if s ≠ State.idle then
      ⟨⟨200, [("status", "rejected"), ("error", "Client busy")]⟩, false, false, []⟩
    else
      ⟨⟨200, [("status", confirmResult)]⟩, true, true, []⟩

/-- `CallbackHandler._handle_play`, with the client registered: an empty
body → 400 and no state writes; otherwise the handler unconditionally
writes `client.state = SPEAKING`, plays, writes `client.state = IDLE` in the
`finally`, and returns 200 `{ok: true}`. It never reads the current state:
the writes happen whatever `s` is. Result: the response and the ordered
state writes. -/
def handlePlay (contentLength : ℕ) (s : State) : HttpResponse × List State :=
  if contentLength = 0 then (⟨400, [("error", "No audio data")]⟩, [])
  else (⟨200, [("ok", "true")]⟩, [State.speaking, State.idle])

/-- The environment one wake interaction runs against: the results the
blocking sub-operations would return. `utterance` is `_record_utterance`'s
result, `response1` the first `_send_to_daemon` result, `interrupted1`
whether barge-in fired during the first playback, `followUp` the
`_listen_for_follow_up` result, `response2` the second `_send_to_daemon`
result (response bodies as byte lists). -/
structure InteractionEnv where
  utterance : Option (List ℤ)
  response1 : Option (List ℤ)
  interrupted1 : Bool
  followUp : Option (List ℤ)
  response2 : Option (List ℤ)
deriving DecidableEq, Repr

/-- Observable trace of `_voice_interaction_loop`: how many times
`_send_to_daemon` (the backend transcribe call) ran, and how many follow-up
listening windows (`_listen_for_follow_up`) were opened. -/
structure InteractionTrace where
  transcribeCalls : ℕ
  followUpWindows : ℕ
deriving DecidableEq, Repr

/-- `_voice_interaction_loop(initial=True)` as a trace function: straight-line
translation of its control flow. No utterance (or an empty one) → return
before any backend call; failed transcribe → error tone and return;
interrupted playback → return; otherwise, when `follow_up_duration > 0`,
open exactly one follow-up window, and only when it yields speech make the
second (and last) transcribe call — its playback is not followed by another
window. -/
def voiceInteractionLoop (followUpDuration : ℚ) (env : InteractionEnv) :
    InteractionTrace :=
  match env.utterance with
  | none => ⟨0, 0⟩
  | some u =>
    if u.length = 0 then ⟨0, 0⟩
    else
      match env.response1 with
      | none => ⟨1, 0⟩
      | some _ =>
        if env.interrupted1 then ⟨1, 0⟩
        else if 0 < followUpDuration then
          match env.followUp with
          | none => ⟨1, 1⟩
          | some _ =>
            match env.response2 with
            | none => ⟨2, 1⟩
            | some _ => ⟨2, 1⟩
        else ⟨1, 0⟩

/-! ## Helper lemmas on the recorder loops -/

theorem framesFrom_succ (stream : ℕ → Frame) (i k : ℕ) :
    framesFrom stream i (k + 1) = stream i :: framesFrom stream (i + 1) k := by
  unfold framesFrom
  rw [List.range_succ_eq_map]
  simp only [List.map_cons, List.map_map, Nat.add_zero, Function.comp_def]
  exact congrArg _ (List.map_congr_left fun a _ => congrArg stream (by omega))

theorem framesFrom_length (stream : ℕ → Frame) (i k : ℕ) :
    (framesFrom stream i k).length = k := by
  simp [framesFrom]

theorem framesFrom_add (stream : ℕ → Frame) (i k m : ℕ) :
    framesFrom stream i (k + m) = framesFrom stream i k ++ framesFrom stream (i + k) m := by
  induction k generalizing i with
  | zero => simp [framesFrom]
  | succ n ih =>
    have h1 : n + 1 + m = (n + m) + 1 := by omega
    rw [h1, framesFrom_succ, ih, framesFrom_succ]
    have h2 : i + 1 + n = i + (n + 1) := by omega
    rw [h2, List.cons_append]

theorem framesFrom_flatten_length (stream : ℕ → Frame) (fs i k : ℕ)
    (h : ∀ j < k, (stream (i + j)).length = fs) :
    (framesFrom stream i k).flatten.length = k * fs := by
  induction k generalizing i with
  | zero => simp [framesFrom]
  | succ n ih =>
    rw [framesFrom_succ]
    simp only [List.flatten_cons, List.length_append]
    have h0 : (stream i).length = fs := by simpa using h 0 (by omega)
    rw [h0, ih (i + 1) (fun j hj => by
      have h2 : i + 1 + j = i + (j + 1) := by omega
      rw [h2]
      exact h (j + 1) (by omega))]
    ring

theorem recordAux_all_quiet (stream : ℕ → Frame) (threshold : ℚ) (silenceNeeded : ℕ) :
    ∀ (fuel i : ℕ) (frames : List Frame) (silenceCount : ℕ),
      (∀ j < fuel, energy (stream (i + j)) ≤ threshold) →
      (recordAux stream threshold silenceNeeded fuel i frames silenceCount false).2 = false := by
  intro fuel
  induction fuel with
  | zero => intro i frames sc _; rfl
  | succ n ih =>
    intro i frames sc h
    have h0 : ¬ (energy (stream i) > threshold) := by
      have := h 0 (by omega)
      simpa using not_lt.mpr this
    rw [recordAux]
    simp only [h0, decide_eq_true_eq, decide_eq_false h0, Bool.or_false,
      Bool.false_and, Bool.false_eq_true, if_false]
    exact ih (i + 1) (frames ++ [stream i]) (sc + 1) fun j hj => by
      have h2 : i + 1 + j = i + (j + 1) := by omega
      rw [h2]
      exact h (j + 1) (by omega)

theorem recordAux_loud_run (stream : ℕ → Frame) (threshold : ℚ) (silenceNeeded : ℕ)
    (hsn : 1 ≤ silenceNeeded) :
    ∀ (k : ℕ), 1 ≤ k →
    ∀ (fuel i : ℕ) (frames : List Frame) (silenceCount : ℕ) (hasSpeech : Bool),
      k ≤ fuel →
      (∀ j < k, threshold < energy (stream (i + j))) →
      recordAux stream threshold silenceNeeded fuel i frames silenceCount hasSpeech =
        recordAux stream threshold silenceNeeded (fuel - k) (i + k)
          (frames ++ framesFrom stream i k) 0 true := by
  intro k
  induction k with
  | zero => omega
  | succ n ih =>
    intro _ fuel i frames sc hs hfuel hloud
    obtain ⟨fuel_a, rfl⟩ : ∃ f, fuel = f + 1 := ⟨fuel - 1, by omega⟩
    rw [recordAux]
    have hl : energy (stream i) > threshold := hloud 0 (by omega)
    have hns : ¬ (silenceNeeded ≤ 0) := by omega
    simp only [decide_eq_true hl, Bool.or_true, if_true, Bool.true_and,
      decide_eq_false hns, Bool.and_false, Bool.false_eq_true, if_false]
    rcases Nat.eq_zero_or_pos n with hn | hn
    · subst hn
      rw [framesFrom_succ]
      simp [framesFrom]
    · rw [ih hn fuel_a (i + 1) (frames ++ [stream i]) 0 true (by omega)
        (fun j hj => by
          have h2 : i + 1 + j = i + (j + 1) := by omega
          rw [h2]
          exact hloud (j + 1) (by omega))]
      rw [framesFrom_succ]
      have he1 : fuel_a + 1 - (n + 1) = fuel_a - n := by omega
      have he2 : i + (n + 1) = i + 1 + n := by omega
      rw [he1, he2]
      simp [List.append_assoc]

theorem recordAux_silence_run (stream : ℕ → Frame) (threshold : ℚ) (silenceNeeded : ℕ) :
    ∀ (m : ℕ), 1 ≤ m →
    ∀ (fuel i : ℕ) (frames : List Frame) (silenceCount : ℕ),
      silenceCount + m = silenceNeeded → m ≤ fuel →
      (∀ j < m, energy (stream (i + j)) ≤ threshold) →
      recordAux stream threshold silenceNeeded fuel i frames silenceCount true =
        (frames ++ framesFrom stream i m, true) := by
  intro m
  induction m with
  | zero => omega
  | succ n ih =>
    intro _ fuel i frames sc hsn hfuel hquiet
    obtain ⟨fuel_a, rfl⟩ : ∃ f, fuel = f + 1 := ⟨fuel - 1, by omega⟩
    rw [recordAux]
    have h0 : ¬ (energy (stream i) > threshold) := by
      have := hquiet 0 (by omega)
      simpa using not_lt.mpr this
    simp only [decide_eq_false h0, Bool.or_false, Bool.true_or,
      Bool.false_eq_true, if_false, Bool.true_and]
    rcases Nat.eq_zero_or_pos n with hn | hn
    · subst hn
      have : silenceNeeded ≤ sc + 1 := by omega
      simp only [decide_eq_true this, if_true]
      rw [framesFrom_succ]
      simp [framesFrom]
    · have : ¬ (silenceNeeded ≤ sc + 1) := by omega
      simp only [decide_eq_false this, Bool.and_false, Bool.false_eq_true, if_false]
      rw [ih hn fuel_a (i + 1) (frames ++ [stream i]) (sc + 1) (by omega) (by omega)
        (fun j hj => by
          have h2 : i + 1 + j = i + (j + 1) := by omega
          rw [h2]
          exact hquiet (j + 1) (by omega))]
      rw [framesFrom_succ]
      simp [List.append_assoc]

theorem followUpAux_no_speech_start (stream : ℕ → Frame) (threshold : ℚ)
    (silenceNeeded startWait : ℕ) :
    ∀ (fuel i waited : ℕ) (frames : List Frame) (silenceCount : ℕ),
      waited < startWait → startWait - waited ≤ fuel →
      (∀ j < startWait - waited, energy (stream (i + j)) ≤ threshold) →
      followUpAux stream threshold silenceNeeded startWait fuel i frames false
        silenceCount waited = none := by
  intro fuel
  induction fuel with
  | zero => intro i w frames sc hw hfuel _; omega
  | succ n ih =>
    intro i w frames sc hw hfuel hquiet
    rw [followUpAux]
    have h0 : ¬ (energy (stream i) > threshold) := by
      have := hquiet 0 (by omega)
      simpa using not_lt.mpr this
    simp only [decide_eq_false h0, Bool.false_eq_true, if_false, if_true]
    by_cases hstop : startWait ≤ w + 1
    · simp [hstop]
    · simp only [hstop, if_false]
      exact ih (i + 1) (w + 1) frames sc (by omega) (by omega) (fun j hj => by
        have h2 : i + 1 + j = i + (j + 1) := by omega
        rw [h2]
        exact hquiet (j + 1) (by omega))

theorem hasThree_cons (threshold : ℚ) (f : Frame) (rest : List Frame) :
    hasThreeConsecutiveLoud threshold (f :: rest) = true ↔
      ((3 ≤ (f :: rest).length ∧ ∀ g ∈ (f :: rest).take 3, threshold * 2 < energy g) ∨
        hasThreeConsecutiveLoud threshold rest = true) := by
  match rest with
  | [] => simp [hasThreeConsecutiveLoud]
  | [g] => simp [hasThreeConsecutiveLoud]
  | g :: h :: r =>
    simp [hasThreeConsecutiveLoud, and_assoc]

theorem hasThree_of_take (threshold : ℚ) (l : List Frame)
    (hlen : 3 ≤ l.length)
    (hall : ∀ g ∈ l.take 3, threshold * 2 < energy g) :
    hasThreeConsecutiveLoud threshold l = true := by
  match l with
  | [] => simp at hlen
  | [_] => simp at hlen
  | [_, _] => simp at hlen
  | f1 :: f2 :: f3 :: r =>
    simp [hasThreeConsecutiveLoud]
    simp at hall
    tauto

theorem interruptAux_iff (threshold : ℚ) :
    ∀ (feed : List Frame) (c : ℕ), c ≤ 2 →
      (interruptAux threshold c feed = true ↔
        ((3 - c ≤ feed.length ∧ ∀ g ∈ feed.take (3 - c), threshold * 2 < energy g) ∨
          hasThreeConsecutiveLoud threshold feed = true)) := by
  intro feed
  induction feed with
  | nil =>
    intro c hc
    simp [interruptAux, hasThreeConsecutiveLoud]
    omega
  | cons f rest ih =>
    intro c hc
    rw [interruptAux]
    by_cases hl : energy f > threshold * 2
    · rw [if_pos hl]
      by_cases h3 : 3 ≤ c + 1
      · rw [if_pos h3]
        have hc2 : c = 2 := by omega
        subst hc2
        simp only [true_iff]
        left
        constructor
        · simp
        · intro g hg
          have hone : (f :: rest).take 1 = [f] := by simp
          rw [hone] at hg
          simp at hg
          subst hg
          exact hl
      · rw [if_neg h3]
        have hc1 : c ≤ 1 := by omega
        rw [ih (c + 1) (by omega), hasThree_cons]
        have h31 : 3 - c = (3 - (c + 1)) + 1 := by omega
        have hAA : (3 - c ≤ (f :: rest).length ∧
            ∀ g ∈ (f :: rest).take (3 - c), threshold * 2 < energy g) ↔
            (3 - (c + 1) ≤ rest.length ∧
            ∀ g ∈ rest.take (3 - (c + 1)), threshold * 2 < energy g) := by
          rw [h31, List.take_succ_cons]
          simp only [List.length_cons, List.mem_cons, forall_eq_or_imp]
          constructor
          · rintro ⟨ha, _, hb⟩
            exact ⟨by omega, hb⟩
          · rintro ⟨ha, hb⟩
            exact ⟨by omega, hl, hb⟩
        have hBA : (3 ≤ (f :: rest).length ∧
            ∀ g ∈ (f :: rest).take 3, threshold * 2 < energy g) →
            (3 - c ≤ (f :: rest).length ∧
            ∀ g ∈ (f :: rest).take (3 - c), threshold * 2 < energy g) := by
          rintro ⟨ha, hb⟩
          refine ⟨by omega, fun g hg => hb g ?_⟩
          have hsub : (f :: rest).take (3 - c) = ((f :: rest).take 3).take (3 - c) := by
            rw [List.take_take]
            congr 1
            omega
          rw [hsub] at hg
          exact List.take_subset _ _ hg
        constructor
        · rintro (ha | hc3)
          · exact Or.inl (hAA.mpr ha)
          · exact Or.inr (Or.inr hc3)
        · rintro (ha | hb | hc3)
          · exact Or.inl (hAA.mp ha)
          · exact Or.inl (hAA.mp (hBA hb))
          · exact Or.inr hc3
    · rw [if_neg hl]
      rw [ih 0 (by omega), hasThree_cons]
      have hA : ¬ (3 - c ≤ (f :: rest).length ∧
          ∀ g ∈ (f :: rest).take (3 - c), threshold * 2 < energy g) := by
        rintro ⟨-, hb⟩
        refine hl (hb f ?_)
        have h31 : 3 - c = (3 - (c + 1)) + 1 := by omega
        rw [h31, List.take_succ_cons]
        simp
      have hB : ¬ (3 ≤ (f :: rest).length ∧
          ∀ g ∈ (f :: rest).take 3, threshold * 2 < energy g) := by
        rintro ⟨-, hb⟩
        exact hl (hb f (by simp))
      constructor
      · rintro (ha | hc3)
        · exact Or.inr (Or.inr (hasThree_of_take threshold rest ha.1 ha.2))
        · exact Or.inr (Or.inr hc3)
      · rintro (ha | hb | hc3)
        · exact absurd ha hA
        · exact absurd hb hB
        · exact Or.inr hc3

/-! ## Claim theorems -/

/-- C5: the interrupt detector sets the interrupted flag and stops playback
exactly when the microphone feed contains at least 3 consecutive frames
whose energy exceeds the elevated threshold (twice the silence threshold);
in particular a feed whose loud runs all have length 1 or 2 never
interrupts. -/
theorem interrupt_detector_iff_three_consecutive (threshold : ℚ) (feed : List Frame) :
    interruptDetector threshold feed = hasThreeConsecutiveLoud threshold feed := by
  rw [Bool.eq_iff_iff, interruptDetector, interruptAux_iff threshold feed 0 (by omega)]
  simp only [Nat.sub_zero]
  constructor
  · rintro (⟨ha, hb⟩ | h)
    · exact hasThree_of_take threshold feed ha hb
    · exact h
  · exact fun h => Or.inr h

/-- C6: when every frame of the first start window
(`follow_up_duration * sample_rate / frame_size` frames) has energy at or
below the silence threshold, `_listen_for_follow_up` returns no utterance
(`None`) at the end of that window, even though the overall maximum frame
count has not been reached. -/
theorem follow_up_no_speech_none (cfg : AudioConfig) (followUpDuration : ℚ)
    (stream : ℕ → Frame)
    (h1 : 1 ≤ startWaitFrames cfg followUpDuration)
    (h2 : startWaitFrames cfg followUpDuration ≤ maxFollowUpFrames cfg followUpDuration)
    (hquiet : ∀ j < startWaitFrames cfg followUpDuration,
      energy (stream j) ≤ cfg.silence_threshold) :
    listenForFollowUp cfg followUpDuration stream = none := by
  have hb := followUpAux_no_speech_start stream cfg.silence_threshold
    (silenceFramesNeeded cfg) (startWaitFrames cfg followUpDuration)
    (maxFollowUpFrames cfg followUpDuration) 0 0 [] 0 (by omega) (by omega)
    (fun j hj => by simpa using hquiet j (by omega))
  simp [listenForFollowUp, hb]

theorem follow_up_no_speech_none_witness :
    listenForFollowUp ⟨4, 1, 2, 10, 1, 3⟩ 2 (fun _ => [0, 0]) = none :=
  follow_up_no_speech_none ⟨4, 1, 2, 10, 1, 3⟩ 2 (fun _ => [0, 0])
    (by norm_num [startWaitFrames, intFloorToNat, Rat.num_ofNat, Rat.den_ofNat])
    (by
      norm_num [startWaitFrames, maxFollowUpFrames, intFloorToNat,
        Rat.num_ofNat, Rat.den_ofNat])
    (fun j _ => by norm_num [energy])

/-- C2: when every frame of the recording window has energy at or below the
silence threshold, `_record_utterance` returns no utterance (`None`), not an
empty or silent one, whatever the (maximum-bounded) sequence length. -/
theorem record_utterance_silence_none (cfg : AudioConfig) (stream : ℕ → Frame)
    (h : ∀ j < maxUtteranceFrames cfg, energy (stream j) ≤ cfg.silence_threshold) :
    recordUtterance cfg stream = none := by
  have hb := recordAux_all_quiet stream cfg.silence_threshold (silenceFramesNeeded cfg)
    (maxUtteranceFrames cfg) 0 [] 0 (fun j hj => by simpa using h j hj)
  simp [recordUtterance, hb]

theorem record_utterance_silence_none_witness :
    recordUtterance ⟨4, 1, 2, 10, 1, 1⟩ (fun _ => [0, 0]) = none :=
  record_utterance_silence_none ⟨4, 1, 2, 10, 1, 1⟩ (fun _ => [0, 0])
    (fun j _ => by norm_num [energy])

/-- C3: for a feed of `N ≥ 1` frames above the silence threshold followed by
exactly `silence_frames_needed ≥ 1` frames at or below it (fitting in the
maximum frame count, every frame of size `frame_size`), the recorder stops
after consuming exactly `N + silence_frames_needed` frames: it returns the
WAV encoding of precisely those frames, whose sample count is
`(N + silence_frames_needed) * frame_size`, i.e. a duration of
`(N + silence_frames_needed) * frame_size / sample_rate` seconds. -/
theorem record_utterance_stops_after_silence (cfg : AudioConfig) (stream : ℕ → Frame)
    (N : ℕ) (hN : 1 ≤ N) (hsn : 1 ≤ silenceFramesNeeded cfg)
    (hmax : N + silenceFramesNeeded cfg ≤ maxUtteranceFrames cfg)
    (hloud : ∀ j < N, cfg.silence_threshold < energy (stream j))
    (hquiet : ∀ j, N ≤ j → j < N + silenceFramesNeeded cfg →
      energy (stream j) ≤ cfg.silence_threshold)
    (hlen : ∀ j < N + silenceFramesNeeded cfg, (stream j).length = cfg.frame_size) :
    recordUtterance cfg stream =
      some (pcm_to_wav cfg.sample_rate
        (framesFrom stream 0 (N + silenceFramesNeeded cfg)).flatten) ∧
    (pcm_to_wav cfg.sample_rate
        (framesFrom stream 0 (N + silenceFramesNeeded cfg)).flatten).samples.length =
      (N + silenceFramesNeeded cfg) * cfg.frame_size ∧
    wavDuration (pcm_to_wav cfg.sample_rate
        (framesFrom stream 0 (N + silenceFramesNeeded cfg)).flatten) =
      (((N + silenceFramesNeeded cfg) * cfg.frame_size : ℕ) : ℚ) / (cfg.sample_rate : ℚ) := by
  have hrec : recordAux stream cfg.silence_threshold (silenceFramesNeeded cfg)
      (maxUtteranceFrames cfg) 0 [] 0 false =
      (framesFrom stream 0 N ++ framesFrom stream N (silenceFramesNeeded cfg), true) := by
    rw [recordAux_loud_run stream cfg.silence_threshold (silenceFramesNeeded cfg) hsn N hN
      (maxUtteranceFrames cfg) 0 [] 0 false (by omega)
      (fun j hj => by simpa using hloud j hj)]
    rw [recordAux_silence_run stream cfg.silence_threshold (silenceFramesNeeded cfg)
      (silenceFramesNeeded cfg) hsn (maxUtteranceFrames cfg - N) (0 + N)
      ([] ++ framesFrom stream 0 N) 0 (by omega) (by omega)
      (fun j hj => hquiet (0 + N + j) (by omega) (by omega))]
    simp
  have hflat : (framesFrom stream 0 (N + silenceFramesNeeded cfg)).flatten.length =
      (N + silenceFramesNeeded cfg) * cfg.frame_size :=
    framesFrom_flatten_length stream cfg.frame_size 0 (N + silenceFramesNeeded cfg)
      (fun j hj => by simpa using hlen j hj)
  refine ⟨?_, hflat, ?_⟩
  · rw [framesFrom_add stream 0 N (silenceFramesNeeded cfg)]
    simp only [Nat.zero_add]
    simp [recordUtterance, hrec]
  · simp [wavDuration, pcm_to_wav, hflat]

theorem record_utterance_stops_after_silence_witness :
    1 ≤ silenceFramesNeeded ⟨4, 1, 2, 10, 1, 3⟩ ∧
    recordUtterance ⟨4, 1, 2, 10, 1, 3⟩
        (fun n => if n = 0 then [100, 100] else [0, 0]) =
      some (pcm_to_wav 4
        (framesFrom (fun n => if n = 0 then [100, 100] else [0, 0]) 0
          (1 + silenceFramesNeeded ⟨4, 1, 2, 10, 1, 3⟩)).flatten) :=
  ⟨by
    norm_num [silenceFramesNeeded, intFloorToNat, Rat.num_ofNat, Rat.den_ofNat],
   (record_utterance_stops_after_silence ⟨4, 1, 2, 10, 1, 3⟩
      (fun n => if n = 0 then [100, 100] else [0, 0]) 1 (by norm_num)
      (by
        norm_num [silenceFramesNeeded, intFloorToNat, Rat.num_ofNat, Rat.den_ofNat])
      (by
        norm_num [silenceFramesNeeded, maxUtteranceFrames, intFloorToNat,
          Rat.num_ofNat, Rat.den_ofNat])
      (fun j hj => by
        have hj0 : j = 0 := by omega
        subst hj0
        norm_num [energy])
      (fun j h1 _ => by
        have hne : j ≠ 0 := by omega
        simp only [hne, if_false]
        norm_num [energy])
      (fun j _ => by by_cases hj : j = 0 <;> simp [hj])).1⟩

/-- C1: a wake trigger delivered while the state is not Idle is ignored
(state unchanged, not accepted); the Idle→Listening transition is the
exclusive check-and-set; and of two triggers serialized by the lock within
one frame-processing window, at most one is accepted (starts a Listening
phase). -/
theorem wake_gate_exclusive (s : State) :
    (s ≠ State.idle → handleWakeGate s = (s, false)) ∧
    handleWakeGate State.idle = (State.listening, true) ∧
    ((handleWakeGate s).2 && (handleWakeGate (handleWakeGate s).1).2) = false := by
  cases s <;> simp [handleWakeGate]

theorem wake_gate_exclusive_witness :
    State.processing ≠ State.idle ∧
    handleWakeGate State.processing = (State.processing, false) ∧
    ((handleWakeGate State.idle).2 &&
      (handleWakeGate (handleWakeGate State.idle).1).2) = false :=
  ⟨by decide, (wake_gate_exclusive State.processing).1 (by decide),
    (wake_gate_exclusive State.idle).2.2⟩

/-- C4: classification returns `"timeout"` on text empty after lowering and
trimming; `"rejected"` whenever any rejection phrase is contained (checked
before the confirmation set, so it wins when both are present); `"confirmed"`
when no rejection phrase is contained (whether or not a confirmation phrase
is); and concretely `"no thanks, go ahead"` → rejected,
`"yeah"` → confirmed. -/
theorem classify_response_spec :
    (∀ text : String, (lowerStrip text).isEmpty = true →
      classify_response text = "timeout") ∧
    (∀ text : String, (lowerStrip text).isEmpty = false →
      (∃ p ∈ REJECTION_PHRASES, containsSub p.data (lowerStrip text) = true) →
      classify_response text = "rejected") ∧
    (∀ text : String, (lowerStrip text).isEmpty = false →
      (∀ p ∈ REJECTION_PHRASES, containsSub p.data (lowerStrip text) = false) →
      (∃ p ∈ CONFIRMATION_PHRASES, containsSub p.data (lowerStrip text) = true) →
      classify_response text = "confirmed") ∧
    (∀ text : String, (lowerStrip text).isEmpty = false →
      (∀ p ∈ REJECTION_PHRASES, containsSub p.data (lowerStrip text) = false) →
      (∀ p ∈ CONFIRMATION_PHRASES, containsSub p.data (lowerStrip text) = false) →
      classify_response text = "confirmed") ∧
    classify_response "no thanks, go ahead" = "rejected" ∧
    classify_response "yeah" = "confirmed" := by
  refine ⟨?_, ?_, ?_, ?_, by decide, by decide⟩
  · intro text h
    simp [classify_response, h]
  · intro text h hex
    have hany : REJECTION_PHRASES.any (fun p => containsSub p.data (lowerStrip text)) = true :=
      List.any_eq_true.mpr hex
    simp [classify_response, h, hany]
  · intro text h hrej hconf
    have hanyr : REJECTION_PHRASES.any (fun p => containsSub p.data (lowerStrip text)) = false := by
      simp only [List.any_eq_false]
      intro p hp
      simp [hrej p hp]
    have hanyc : CONFIRMATION_PHRASES.any (fun p => containsSub p.data (lowerStrip text)) = true :=
      List.any_eq_true.mpr hconf
    simp [classify_response, h, hanyr, hanyc]
  · intro text h hrej hconf
    have hanyr : REJECTION_PHRASES.any (fun p => containsSub p.data (lowerStrip text)) = false := by
      simp only [List.any_eq_false]
      intro p hp
      simp [hrej p hp]
    simp [classify_response, h, hanyr]

theorem classify_response_spec_witness :
    classify_response "   " = "timeout" ∧
    classify_response "Not now!" = "rejected" ∧
    classify_response "OK sure" = "confirmed" ∧
    classify_response "hello there" = "confirmed" :=
  ⟨classify_response_spec.1 "   " (by decide),
   classify_response_spec.2.1 "Not now!" (by decide) ⟨"not now", by decide, by decide⟩,
   classify_response_spec.2.2.1 "OK sure" (by decide) (by decide) ⟨"sure", by decide, by decide⟩,
   classify_response_spec.2.2.2.1 "hello there" (by decide) (by decide) (by decide)⟩

/-- C10: phrase matching is plain substring containment, not word-boundary
matching: any text whose lowercased trimmed form contains a rejection phrase
as a contiguous substring — even inside a longer word — classifies as
rejected. Concretely, "I know the answer" is rejected because "know"
contains "no", although no whitespace-separated word of the text is a
rejection phrase. -/
theorem classify_substring_containment :
    (∀ text : String, (lowerStrip text).isEmpty = false →
      (∃ p ∈ REJECTION_PHRASES, containsSub p.data (lowerStrip text) = true) →
      classify_response text = "rejected") ∧
    classify_response "I know the answer" = "rejected" ∧
    ((lowerStrip "I know the answer").splitOnP (· = ' ')).all
      (fun w => REJECTION_PHRASES.all (fun p => w ≠ p.data)) = true := by
  refine ⟨?_, by decide, by decide⟩
  intro text h hex
  have hany : REJECTION_PHRASES.any (fun p => containsSub p.data (lowerStrip text)) = true :=
    List.any_eq_true.mpr hex
  simp [classify_response, h, hany]

theorem classify_substring_containment_witness :
    classify_response "They know it" = "rejected" :=
  classify_substring_containment.1 "They know it" (by decide)
    ⟨"no", by decide, by decide⟩

/-- C9: a chime request while the state is not Idle gets an immediate
HTTP 200 with body `{status: "rejected", error: "Client busy"}`, with no
chime sound played and no confirmation listening; a chime request whose
body is not valid JSON gets a structured HTTP 400. -/
theorem chime_busy_and_malformed (s : State) (text ntype confirmResult : String) :
    (s ≠ State.idle →
      handleChime (ChimeBody.valid text ntype) s confirmResult =
        ⟨⟨200, [("status", "rejected"), ("error", "Client busy")]⟩, false, false, []⟩) ∧
    handleChime ChimeBody.invalid s confirmResult =
      ⟨⟨400, [("status", "error"), ("error", "Invalid JSON")]⟩, false, false, []⟩ := by
  refine ⟨fun h => ?_, rfl⟩
  simp [handleChime, h]

theorem chime_busy_and_malformed_witness :
    handleChime (ChimeBody.valid "meeting" "notification") State.speaking "confirmed" =
      ⟨⟨200, [("status", "rejected"), ("error", "Client busy")]⟩, false, false, []⟩ ∧
    handleChime ChimeBody.invalid State.idle "confirmed" =
      ⟨⟨400, [("status", "error"), ("error", "Invalid JSON")]⟩, false, false, []⟩ :=
  ⟨(chime_busy_and_malformed State.speaking "meeting" "notification" "confirmed").1
      (by decide),
   (chime_busy_and_malformed State.idle "meeting" "notification" "confirmed").2⟩

/-- C8 as stated is false: the play handler does not go through the
check-and-set gate — with the wake-word loop holding the state at
Processing, a play request with a nonempty body still writes
SPEAKING and then IDLE to ClientState. -/
theorem play_handler_bypasses_gate :
    State.processing ≠ State.idle ∧
    (handlePlay 4 State.processing).2 = [State.speaking, State.idle] :=
  ⟨by decide, rfl⟩

/-- C8 amended: the chime handler never writes ClientState and rejects with
"Client busy" using the Orchestrator's busy test (state ≠ Idle), but it
performs that read without the lock; the play handler writes ClientState
(Speaking, then Idle) unconditionally for every nonempty body, without any
check of the current state, so a concurrent play callback can change
ClientState while the wake-word loop is in a non-Idle state. -/
theorem callback_state_interaction (body : ChimeBody) (s : State)
    (confirmResult : String) (contentLength : ℕ) :
    (handleChime body s confirmResult).stateWrites = [] ∧
    (∀ text ntype, s ≠ State.idle →
      (handleChime (ChimeBody.valid text ntype) s confirmResult).response =
        ⟨200, [("status", "rejected"), ("error", "Client busy")]⟩) ∧
    (contentLength ≠ 0 →
      (handlePlay contentLength s).2 = [State.speaking, State.idle]) := by
  refine ⟨?_, fun text ntype h => ?_, fun h => ?_⟩
  · cases body with
    | invalid => rfl
    | valid t n =>
      by_cases h : s = State.idle <;> simp [handleChime, h]
  · simp [handleChime, h]
  · simp [handlePlay, h]

theorem callback_state_interaction_witness :
    (handleChime (ChimeBody.valid "hi" "notification") State.processing "confirmed").stateWrites
      = [] ∧
    (handleChime (ChimeBody.valid "hi" "notification") State.processing "confirmed").response =
      ⟨200, [("status", "rejected"), ("error", "Client busy")]⟩ ∧
    (handlePlay 4 State.processing).2 = [State.speaking, State.idle] :=
  ⟨(callback_state_interaction (ChimeBody.valid "hi" "notification") State.processing
      "confirmed" 4).1,
   (callback_state_interaction (ChimeBody.valid "hi" "notification") State.processing
      "confirmed" 4).2.1 "hi" "notification" (by decide),
   (callback_state_interaction (ChimeBody.valid "hi" "notification") State.processing
      "confirmed" 4).2.2 (by decide)⟩

/-- C7: per wake event the conversation is bounded to one follow-up turn:
at most two backend transcribe calls, at most one follow-up listening
window, and when the follow-up window detects no speech no second backend
call is made. -/
theorem interaction_bounded (followUpDuration : ℚ) (env : InteractionEnv) :
    (voiceInteractionLoop followUpDuration env).transcribeCalls ≤ 2 ∧
    (voiceInteractionLoop followUpDuration env).followUpWindows ≤ 1 ∧
    (env.followUp = none →
      (voiceInteractionLoop followUpDuration env).transcribeCalls ≤ 1) := by
  obtain ⟨u, r1, i1, fu, r2⟩ := env
  cases u <;> cases r1 <;> cases i1 <;> cases fu <;> cases r2 <;>
    simp only [voiceInteractionLoop] <;> (repeat' split) <;>
    exact ⟨by norm_num, by norm_num, fun h => by simp_all⟩

theorem interaction_bounded_witness :
    (voiceInteractionLoop 3
      ⟨some [1], some [2], false, none, none⟩).transcribeCalls ≤ 2 ∧
    (voiceInteractionLoop 3
      ⟨some [1], some [2], false, none, none⟩).transcribeCalls ≤ 1 :=
  ⟨(interaction_bounded 3 ⟨some [1], some [2], false, none, none⟩).1,
   (interaction_bounded 3 ⟨some [1], some [2], false, none, none⟩).2.2 rfl⟩

end BMOVoice
